import Mathlib

/-!
Formal model of the Discord attendance / music bot (`src/bot.py`).

The file shallowly embeds the two stateful subsystems the specification
describes — the voice-session attendance tracker (`on_voice_state_update`)
and the per-guild music queue engine (`AdvancedMusicQueue`) — together with
the duration formatting and statistics helpers (`format_duration`,
`calculate_total_time`, `get_session_stats`), and proves the specified
properties about them.

Modelling conventions:
* Timestamps are natural numbers (seconds).  Python stores ISO strings and
  computes `datetime` differences; the model stores the numeric difference
  directly in `Session.duration`.
* Python exceptions never arise on the modelled paths (all modelled
  operations are total); the bot's blanket `try/except` wrappers are
  therefore not represented.
* Randomness (`random.choice`, `random.shuffle`) is modelled by explicit
  parameters: a natural number selecting a queue position, and an arbitrary
  permutation-producing function.
* Python dicts whose keys may be absent are modelled with `Option` fields.
-/

namespace AttendanceBot

/-- A voice channel reference.  `discord.py` compares channels by their id,
so the tracker's channel comparisons below use the `id` field. -/
structure Channel where
  id : Nat
  name : String
deriving DecidableEq

/-- One session record, as stored in `attendance_data[guild][user]['sessions']`.
`join_time` and `leave_time` are modelled as numeric timestamps and
`duration` as the numeric difference that Python renders with
`str(leave_time - join_time)`. -/
structure Session where
  channel_name : String
  channel_id : Nat
  join_time : Nat
  leave_time : Option Nat := none
  duration : Option Nat := none
deriving DecidableEq

/-- The session dict appended on a join transition (bot.py lines 394-401). -/
def openSession (c : Channel) (t : Nat) : Session :=
  { channel_name := c.name, channel_id := c.id, join_time := t }

/-- Closing a session: set `leave_time` and `duration = timestamp - join_time`
(bot.py lines 410-415). -/
def closeSessionAt (s : Session) (t : Nat) : Session :=
  { s with leave_time := some t, duration := some (t - s.join_time) }

/-- One step of the loop `for session in reversed(user_sessions): ...`
(bot.py lines 408-416): the argument list is ordered most-recent-first,
and the first open session whose channel matches is closed, after which
the loop breaks. -/
def closeFirst (l : List Session) (cid : Nat) (t : Nat) : List Session :=
  match l with
  | [] => []
  | s :: rest =>
    if s.leave_time = none ∧ s.channel_id = cid then
      closeSessionAt s t :: rest
    else
      s :: closeFirst rest cid t

/-- The whole close step of the leave branch: scan the user's session list
from most recent to oldest and close the first open session in channel
`cid`; if none matches, the list is returned unchanged. -/
def closeMostRecent (l : List Session) (cid : Nat) (t : Nat) : List Session :=
  (closeFirst l.reverse cid t).reverse

/-- The session-list effect of `on_voice_state_update` (bot.py lines 373-447)
for one user: `before`/`after` are the previous and next channel of the
voice-state change.  Join appends a fresh open session, leave closes the
most recent matching open session, a switch does close-then-open with the
same timestamp, and a same-channel event (mute/deafen) is a no-op. -/
def on_voice_state_update (sessions : List Session)
    (before after : Option Channel) (t : Nat) : List Session :=
  match before, after with
  | none, some c => sessions ++ [openSession c t]
  | some b, none => closeMostRecent sessions b.id t
  | some b, some c =>
      if b.id ≠ c.id then
        closeMostRecent sessions b.id t ++ [openSession c t]
      else
        sessions
  | none, none => sessions

/-- Run a well-formed transition sequence for a single user: each event
carries the target channel (`none` = disconnected) and its timestamp, and
its `before` channel is the channel the user occupied after the previous
event, starting from `cur`. -/
def runTransitions (cur : Option Channel) (sessions : List Session) :
    List (Option Channel × Nat) → List Session × Option Channel
  | [] => (sessions, cur)
  | (nxt, t) :: evs =>
      runTransitions nxt (on_voice_state_update sessions cur nxt t) evs

/-- Number of open sessions (null leave timestamp) in a session list. -/
def openCount (l : List Session) : Nat :=
  l.countP fun s => s.leave_time.isNone

/-- Tracker invariant tying the session list to the channel currently
occupied: the open-session count is 0 when disconnected and 1 otherwise,
and every open session records the occupied channel's id. -/
def trackerInv (l : List Session) (cur : Option Channel) : Prop :=
  openCount l = (match cur with | none => 0 | some _ => 1) ∧
  ∀ s ∈ l, s.leave_time = none → ∃ c, cur = some c ∧ s.channel_id = c.id

lemma closeFirst_eq_self (l : List Session) (cid t : Nat)
    (h : ∀ s ∈ l, ¬(s.leave_time = none ∧ s.channel_id = cid)) :
    closeFirst l cid t = l := by
  induction l with
  | nil => rfl
  | cons a l ih =>
    simp only [closeFirst]
    rw [if_neg (h a (List.mem_cons_self a l)),
      ih fun s hs => h s (List.mem_cons_of_mem a hs)]

lemma closeFirst_append (a b : List Session) (cid t : Nat)
    (h : ∀ s ∈ a, ¬(s.leave_time = none ∧ s.channel_id = cid)) :
    closeFirst (a ++ b) cid t = a ++ closeFirst b cid t := by
  induction a with
  | nil => rfl
  | cons x xs ih =>
    simp only [List.cons_append, closeFirst, List.append_eq]
    rw [if_neg (h x (List.mem_cons_self x xs)),
      ih fun s hs => h s (List.mem_cons_of_mem x hs)]

lemma closeMostRecent_eq_self (l : List Session) (cid t : Nat)
    (h : ∀ s ∈ l, ¬(s.leave_time = none ∧ s.channel_id = cid)) :
    closeMostRecent l cid t = l := by
  unfold closeMostRecent
  rw [closeFirst_eq_self _ _ _ fun s hs => h s (List.mem_reverse.mp hs),
    List.reverse_reverse]

lemma closeMostRecent_decomp (l₁ : List Session) (s : Session)
    (l₂ : List Session) (cid t : Nat)
    (hs : s.leave_time = none) (hcid : s.channel_id = cid)
    (h₂ : ∀ s' ∈ l₂, ¬(s'.leave_time = none ∧ s'.channel_id = cid)) :
    closeMostRecent (l₁ ++ s :: l₂) cid t = l₁ ++ closeSessionAt s t :: l₂ := by
  unfold closeMostRecent
  rw [show (l₁ ++ s :: l₂).reverse = l₂.reverse ++ s :: l₁.reverse by simp]
  rw [closeFirst_append _ _ _ _ fun s' hs' => h₂ s' (List.mem_reverse.mp hs')]
  rw [show closeFirst (s :: l₁.reverse) cid t = closeSessionAt s t :: l₁.reverse by
        simp only [closeFirst]; rw [if_pos ⟨hs, hcid⟩]]
  simp

lemma openCount_append (a b : List Session) :
    openCount (a ++ b) = openCount a + openCount b :=
  List.countP_append _ _ _

lemma openCount_eq_zero {l : List Session} :
    openCount l = 0 ↔ ∀ s ∈ l, s.leave_time ≠ none := by
  unfold openCount
  rw [List.countP_eq_zero]
  simp [Option.isNone_iff_eq_none]

lemma exists_open_decomp (l : List Session) (h : openCount l = 1) :
    ∃ l₁ s l₂, l = l₁ ++ s :: l₂ ∧ s.leave_time = none ∧
      openCount l₁ = 0 ∧ openCount l₂ = 0 := by
  induction l with
  | nil => simp [openCount] at h
  | cons a l ih =>
    rw [openCount, List.countP_cons] at h
    by_cases ha : a.leave_time = none
    · refine ⟨[], a, l, rfl, ha, rfl, ?_⟩
      rw [ha] at h
      simp only [Option.isNone_none, if_true] at h
      rw [openCount]
      omega
    · have ha' : a.leave_time.isNone = false := by
        cases hl : a.leave_time with
        | none => exact absurd hl ha
        | some v => rfl
      rw [ha'] at h
      simp only [Bool.false_eq_true, if_false, Nat.add_zero] at h
      obtain ⟨l₁, s, l₂, rfl, hs, h1, h2⟩ := ih h
      refine ⟨a :: l₁, s, l₂, rfl, hs, ?_, h2⟩
      rw [openCount, List.countP_cons, ha']
      simp only [Bool.false_eq_true, if_false, Nat.add_zero]
      exact h1

lemma close_all_closed (l : List Session) (b : Channel) (t : Nat)
    (h1 : openCount l = 1)
    (h2 : ∀ s ∈ l, s.leave_time = none →
      ∃ c, (some b : Option Channel) = some c ∧ s.channel_id = c.id) :
    openCount (closeMostRecent l b.id t) = 0 := by
  obtain ⟨l₁, s, l₂, rfl, hsopen, hz1, hz2⟩ := exists_open_decomp l h1
  have hcid : s.channel_id = b.id := by
    obtain ⟨c, hc, hcid⟩ := h2 s (by simp) hsopen
    cases hc
    exact hcid
  rw [closeMostRecent_decomp l₁ s l₂ b.id t hsopen hcid
    fun s' hs' hbad => openCount_eq_zero.mp hz2 s' hs' hbad.1]
  rw [openCount_append, hz1, openCount, List.countP_cons]
  have : openCount l₂ = 0 := hz2
  rw [openCount] at this
  simp [this, closeSessionAt]

lemma trackerInv_step (l : List Session) (cur nxt : Option Channel) (t : Nat)
    (h : trackerInv l cur) :
    trackerInv (on_voice_state_update l cur nxt t) nxt := by
  obtain ⟨h1, h2⟩ := h
  match cur, nxt with
  | none, none => exact ⟨h1, h2⟩
  | none, some c =>
    refine ⟨?_, ?_⟩
    · rw [show on_voice_state_update l none (some c) t
            = l ++ [openSession c t] from rfl, openCount_append, h1]
      rfl
    · intro s hs hopen
      rw [show on_voice_state_update l none (some c) t
            = l ++ [openSession c t] from rfl] at hs
      rcases List.mem_append.mp hs with hl | hr
      · exact absurd hopen (openCount_eq_zero.mp h1 s hl)
      · refine ⟨c, rfl, ?_⟩
        have hse : s = openSession c t := by simpa using hr
        rw [hse]
        rfl
  | some b, none =>
    have hz : openCount (on_voice_state_update l (some b) none t) = 0 :=
      close_all_closed l b t h1 h2
    exact ⟨hz, fun s' hs' hopen => absurd hopen (openCount_eq_zero.mp hz s' hs')⟩
  | some b, some c =>
    by_cases hbc : b.id ≠ c.id
    · have hstep : on_voice_state_update l (some b) (some c) t
          = closeMostRecent l b.id t ++ [openSession c t] := by
        simp only [on_voice_state_update]
        rw [if_pos hbc]
      have hz : openCount (closeMostRecent l b.id t) = 0 :=
        close_all_closed l b t h1 h2
      refine ⟨?_, ?_⟩
      · rw [hstep, openCount_append, hz]
        rfl
      · intro s hs hopen
        rw [hstep] at hs
        rcases List.mem_append.mp hs with hl | hr
        · exact absurd hopen (openCount_eq_zero.mp hz s hl)
        · refine ⟨c, rfl, ?_⟩
          have hse : s = openSession c t := by simpa using hr
          rw [hse]
          rfl
    · have hstep : on_voice_state_update l (some b) (some c) t = l := by
        simp only [on_voice_state_update]
        rw [if_neg hbc]
      push_neg at hbc
      refine ⟨by rw [hstep]; exact h1, ?_⟩
      intro s hs hopen
      rw [hstep] at hs
      obtain ⟨c', hc', hcid⟩ := h2 s hs hopen
      cases hc'
      exact ⟨c, rfl, by rw [hcid, ← hbc]⟩

lemma runTransitions_inv (evs : List (Option Channel × Nat)) :
    ∀ cur l, trackerInv l cur →
      trackerInv (runTransitions cur l evs).1 (runTransitions cur l evs).2 := by
  induction evs with
  | nil => intro cur l h; exact h
  | cons e evs ih =>
    intro cur l h
    obtain ⟨nxt, t⟩ := e
    exact ih nxt _ (trackerInv_step l cur nxt t h)

/-- C1: for every well-formed transition sequence for a single user
(each event's previous channel is the channel occupied after the previous
event, starting from no channel and an empty store), after every
`on_voice_state_update` call at most one session in the user's list has a
null leave timestamp.  Quantifying over all sequences covers every
intermediate state, since each is the final state of a prefix. -/
theorem attendance_at_most_one_open (evs : List (Option Channel × Nat)) :
    openCount (runTransitions none [] evs).1 ≤ 1 := by
  have hinv := runTransitions_inv evs none [] ⟨rfl, by simp⟩
  rw [hinv.1]
  cases (runTransitions none [] evs).2 <;> simp

/-- C2: on a leave transition the close step rewrites exactly the most
recent open session whose channel matches — `most recent` meaning no later
session in the list is an open match — setting its leave time to the event
timestamp and its duration to `timestamp - join_time`
(see `closeSessionAt`), leaving every other session untouched; when no
open session matches, the list is returned unchanged. -/
theorem leave_closes_most_recent_matching_open (l : List Session)
    (cid t : Nat) :
    ((∀ s ∈ l, ¬(s.leave_time = none ∧ s.channel_id = cid)) →
      closeMostRecent l cid t = l) ∧
    (∀ l₁ s l₂, l = l₁ ++ s :: l₂ → s.leave_time = none →
      s.channel_id = cid →
      (∀ s' ∈ l₂, ¬(s'.leave_time = none ∧ s'.channel_id = cid)) →
      closeMostRecent l cid t = l₁ ++ closeSessionAt s t :: l₂) :=
  ⟨fun h => closeMostRecent_eq_self l cid t h,
   fun l₁ s l₂ hl hs hcid h₂ =>
     hl ▸ closeMostRecent_decomp l₁ s l₂ cid t hs hcid h₂⟩

/-- Concrete sessions for the C2 witness: a closed one, an open one in
channel 2 and a later open one in channel 3. -/
def sessA : Session :=
  { channel_name := "general", channel_id := 1, join_time := 0,
    leave_time := some 5, duration := some 5 }

def sessB : Session :=
  { channel_name := "games", channel_id := 2, join_time := 10 }

def sessC : Session :=
  { channel_name := "music", channel_id := 3, join_time := 20 }

/-- Witness for C2: leaving channel 2 at time 50 closes the open channel-2
session (duration `50 - 10 = 40`) and leaves its neighbours unchanged. -/
theorem leave_close_witness :
    closeMostRecent [sessA, sessB, sessC] 2 50 =
      [sessA,
       { channel_name := "games", channel_id := 2, join_time := 10,
         leave_time := some 50, duration := some 40 },
       sessC] :=
  (leave_closes_most_recent_matching_open [sessA, sessB, sessC] 2 50).2
    [sessA] sessB [sessC] rfl rfl rfl (by decide)

end AttendanceBot

namespace MusicBot

/-- Loop mode of the queue engine: `"off"`, `"song"` (repeat-current) or
`"queue"` (repeat-queue). -/
inductive LoopMode
  | off
  | song
  | queue
deriving DecidableEq

/-- The per-guild music queue state (`AdvancedMusicQueue.__init__`,
bot.py lines 112-121), parametric in the queue-entry type.  Field defaults
mirror the constructor; `volume` (a Python float) is modelled as a
rational. -/
structure AdvancedMusicQueue (α : Type) where
  queue : List α := []
  history : List α := []
  current : Option α := none
  loop_mode : LoopMode := LoopMode.off
  shuffle : Bool := false
  volume : ℚ := 1 / 2
  autoplay : Bool := false
  original_queue : List α := []
deriving DecidableEq

variable {α : Type} [DecidableEq α]

/-- Append to the bounded history `deque(maxlen=50)`: when the deque is
full the oldest (leftmost) entry is evicted. -/
def histAppend (h : List α) (x : α) : List α :=
  if h.length < 50 then h ++ [x] else h.tail ++ [x]

/-- `AdvancedMusicQueue.add` (bot.py lines 123-126): append to the queue
tail, and if shuffle is active with no baseline snapshot yet, capture the
(just extended) queue as the restore baseline. -/
def add (s : AdvancedMusicQueue α) (song : α) : AdvancedMusicQueue α :=
  let s1 := { s with queue := s.queue ++ [song] }
  if s1.shuffle = true ∧ s1.original_queue = [] then
    { s1 with original_queue := s1.queue }
  else s1

/-- The history of the next state after the `if self.current:
self.history.append(self.current)` step of `next` (bot.py lines 136-137). -/
def historyAfterAppend (s : AdvancedMusicQueue α) : List α :=
  match s.current with
  | some c => histAppend s.history c
  | none => s.history

/-- The first two mutation steps of `AdvancedMusicQueue.next` (bot.py
lines 136-142): append the current entry (if any) to history, then, in
repeat-queue mode with an empty queue and non-empty history, refill the
queue from history in recorded order and clear the history.  (The
condition reads the history after the append, which is
`historyAfterAppend s`.) -/
def nextPrep (s : AdvancedMusicQueue α) : AdvancedMusicQueue α :=
  if s.loop_mode = LoopMode.queue ∧ s.queue = [] ∧ historyAfterAppend s ≠ [] then
    { s with queue := historyAfterAppend s, history := [] }
  else
    { s with history := historyAfterAppend s }

/-- `AdvancedMusicQueue.next` (bot.py lines 132-154).  `r` models
`random.choice`: in shuffle mode the entry at position `r % len(queue)` is
chosen and removed by value — `deque.remove` deletes the first occurrence
equal to it — otherwise the head is popped.  Returns the new current entry,
or `none` when the queue is exhausted (in which case `current` is not
written). -/
def next (r : Nat) (s : AdvancedMusicQueue α) : Option α × AdvancedMusicQueue α :=
  if s.loop_mode = LoopMode.song ∧ s.current.isSome = true then
    (s.current, s)
  else
    match (nextPrep s).queue with
    | [] => (none, nextPrep s)
    | x :: xs =>
      if (nextPrep s).shuffle then
        (some ((x :: xs).getD (r % (xs.length + 1)) x),
          { nextPrep s with
              queue := (x :: xs).erase ((x :: xs).getD (r % (xs.length + 1)) x),
              current := some ((x :: xs).getD (r % (xs.length + 1)) x) })
      else
        (some x, { nextPrep s with queue := xs, current := some x })

/-- `AdvancedMusicQueue.skip` (bot.py lines 156-166): pop the head (or a
random entry under shuffle) as the new current, without touching history. -/
def skip (r : Nat) (s : AdvancedMusicQueue α) : Option α × AdvancedMusicQueue α :=
  match s.queue with
  | [] => (none, s)
  | x :: xs =>
    if s.shuffle then
      (some ((x :: xs).getD (r % (xs.length + 1)) x),
        { s with queue := (x :: xs).erase ((x :: xs).getD (r % (xs.length + 1)) x),
                 current := some ((x :: xs).getD (r % (xs.length + 1)) x) })
    else
      (some x, { s with queue := xs, current := some x })

/-- `AdvancedMusicQueue.clear` (bot.py lines 168-172). -/
def clear (s : AdvancedMusicQueue α) : AdvancedMusicQueue α :=
  { s with queue := [], history := [], original_queue := [], current := none }

/-- `AdvancedMusicQueue.remove` (bot.py lines 174-180): a 0-based index in
range removes and returns that entry; anything else returns `None` and
leaves the state untouched.  The index is an integer, as the command layer
passes `index - 1` of a user-supplied int. -/
def remove (s : AdvancedMusicQueue α) (index : Int) :
    Option α × AdvancedMusicQueue α :=
  if h : 0 ≤ index ∧ index < (s.queue.length : Int) then
    (some (s.queue.get ⟨index.toNat, by omega⟩),
     { s with queue := s.queue.eraseIdx index.toNat })
  else
    (none, s)

/-- `AdvancedMusicQueue.move` (bot.py lines 182-189). -/
def move (s : AdvancedMusicQueue α) (from_index to_index : Int) :
    Bool × AdvancedMusicQueue α :=
  if h : (0 ≤ from_index ∧ from_index < (s.queue.length : Int)) ∧
      0 ≤ to_index ∧ to_index < (s.queue.length : Int) then
    let song := s.queue.get ⟨from_index.toNat, by omega⟩
    (true,
     { s with queue :=
        (s.queue.eraseIdx from_index.toNat).insertIdx to_index.toNat song })
  else
    (false, s)

/-- `AdvancedMusicQueue.toggle_shuffle` (bot.py lines 191-205).  `shuf`
models `random.shuffle`, producing the permuted live queue.  Enabling
snapshots the order into the baseline and permutes the queue; disabling
restores the baseline when one exists (Python truthiness: non-empty) and
clears it. -/
def toggle_shuffle (shuf : List α → List α) (s : AdvancedMusicQueue α) :
    Bool × AdvancedMusicQueue α :=
  if !s.shuffle then
    (!s.shuffle, { s with shuffle := !s.shuffle, original_queue := s.queue,
                          queue := shuf s.queue })
  else if s.original_queue ≠ [] then
    (!s.shuffle, { s with shuffle := !s.shuffle, queue := s.original_queue,
                          original_queue := [] })
  else
    (!s.shuffle, { s with shuffle := !s.shuffle })

/-- `AdvancedMusicQueue.set_loop_mode` (bot.py lines 207-212), on the
already-validated tagged variant. -/
def set_loop_mode (s : AdvancedMusicQueue α) (mode : LoopMode) :
    Bool × AdvancedMusicQueue α :=
  (true, { s with loop_mode := mode })

/-- C3: with entries `a, b, c` queued, no current entry, loop off and
shuffle off, three `next()` calls return `a`, `b`, `c` in order; after the
third the pending queue is empty and the history is exactly `[a, b]` (`c`
is current, not yet in history).  The random seeds are irrelevant since
shuffle is off. -/
theorem advance_fifo_three_entries (a b c r₁ r₂ r₃ : Nat) :
    let s0 : AdvancedMusicQueue Nat := { queue := [a, b, c] }
    let p1 := next r₁ s0
    let p2 := next r₂ p1.2
    let p3 := next r₃ p2.2
    p1.1 = some a ∧ p2.1 = some b ∧ p3.1 = some c ∧
      p3.2.queue = [] ∧ p3.2.history = [a, b] ∧ p3.2.current = some c :=
  ⟨rfl, rfl, rfl, rfl, rfl, rfl⟩

/-- State for the C4 counterexample: a queue that just finished playing
entry `7` with nothing pending. -/
def sC4 : AdvancedMusicQueue Nat := { current := some 7 }

/-- Counterexample to C4 as stated: with an empty pending queue (also after
the history-append and refill steps), `next()` returns the empty signal but
does NOT set the current entry to null — `self.current` is never written on
this path, so the old entry `7` survives. -/
theorem advance_empty_keeps_current_cex :
    (nextPrep sC4).queue = [] ∧ (next 0 sC4).1 = none ∧
      (next 0 sC4).2.current = some 7 :=
  ⟨rfl, rfl, rfl⟩

/-- C4 (amended): whenever the replay branch does not fire and the pending
queue is empty after the history-append and possible refill steps,
`next()` returns the empty signal and leaves the current entry unchanged
(it is not reset to null). -/
theorem advance_empty_returns_none_keeps_current (r : Nat)
    (s : AdvancedMusicQueue α)
    (h1 : ¬(s.loop_mode = LoopMode.song ∧ s.current.isSome = true))
    (h2 : (nextPrep s).queue = []) :
    next r s = (none, nextPrep s) ∧ (next r s).2.current = s.current := by
  have hcur : (nextPrep s).current = s.current := by
    unfold nextPrep
    split <;> rfl
  have hn : next r s = (none, nextPrep s) := by
    unfold next
    rw [if_neg h1]
    split
    · rfl
    · rename_i x xs heq
      rw [h2] at heq
      cases heq
  exact ⟨hn, by rw [hn]; exact hcur⟩

/-- Witness for the amended C4 at the concrete state `sC4`. -/
theorem advance_empty_witness :
    next 0 sC4 = (none, nextPrep sC4) ∧ (next 0 sC4).2.current = some 7 :=
  advance_empty_returns_none_keeps_current 0 sC4 (by decide) rfl

/-- C5: in repeat-queue mode, when the pending queue is empty and the
history after the current-entry append is non-empty, the refill step of
`next()` makes the pending queue exactly that history in recorded order
and empties the history.  `nextPrep` takes no randomness, so no shuffling
is applied during the refill. -/
theorem repeat_queue_refill_from_history (s : AdvancedMusicQueue α)
    (h1 : s.loop_mode = LoopMode.queue) (h2 : s.queue = [])
    (h3 : historyAfterAppend s ≠ []) :
    (nextPrep s).queue = historyAfterAppend s ∧ (nextPrep s).history = [] := by
  unfold nextPrep
  rw [if_pos ⟨h1, h2, h3⟩]
  exact ⟨rfl, rfl⟩

/-- State for the C5 witness: repeat-queue mode, empty queue, history
`[1, 2]` and current entry `3`. -/
def sC5 : AdvancedMusicQueue Nat :=
  { history := [1, 2], current := some 3, loop_mode := LoopMode.queue }

/-- Witness for C5: the refill turns the queue into `[1, 2, 3]` (the
history plus the appended current entry, in recorded order) and clears
the history. -/
theorem repeat_queue_refill_witness :
    (nextPrep sC5).queue = [1, 2, 3] ∧ (nextPrep sC5).history = [] :=
  repeat_queue_refill_from_history sC5 rfl rfl (by decide)

/-- C6: toggling shuffle on and then off again, with no intervening
mutation, restores the pending queue to its exact previous order and
clears the baseline snapshot.  `f` and `g` are the permutations produced
by the two `random.shuffle` calls; only `f` being a permutation matters
(and only to handle the empty queue, where the restore branch is
skipped). -/
theorem shuffle_toggle_restores_order (s : AdvancedMusicQueue α)
    (f g : List α → List α) (hf : ∀ l, List.Perm (f l) l)
    (hoff : s.shuffle = false) :
    (toggle_shuffle g (toggle_shuffle f s).2).2.queue = s.queue ∧
      (toggle_shuffle g (toggle_shuffle f s).2).2.original_queue = [] := by
  have h1 : (toggle_shuffle f s).2
      = { s with shuffle := true, original_queue := s.queue,
                 queue := f s.queue } := by
    unfold toggle_shuffle
    rw [hoff]
    rfl
  rw [h1]
  by_cases hq : s.queue = []
  · have hfq : f [] = [] := (hf []).eq_nil
    unfold toggle_shuffle
    simp [hq, hfq]
  · unfold toggle_shuffle
    simp [hq]

/-- Queue for the C6 witness. -/
def sC6 : AdvancedMusicQueue Nat := { queue := [1, 2, 3] }

/-- Witness for C6 with `random.shuffle` instantiated by `List.reverse`
(a permutation): toggling twice restores `[1, 2, 3]` and clears the
baseline. -/
theorem shuffle_toggle_witness :
    (toggle_shuffle id (toggle_shuffle List.reverse sC6).2).2.queue
        = [1, 2, 3] ∧
      (toggle_shuffle id (toggle_shuffle List.reverse sC6).2).2.original_queue
        = [] :=
  shuffle_toggle_restores_order sC6 List.reverse id
    (fun l => l.reverse_perm) rfl

/-- C7: `remove` with a 0-based index outside `[0, len(queue))` returns the
failure indicator `none` and leaves the state unchanged; with a valid
index it returns the removed entry (the queue entry at that index) and
deletes exactly that position. -/
theorem remove_out_of_range_safe (s : AdvancedMusicQueue α) (index : Int) :
    (¬(0 ≤ index ∧ index < (s.queue.length : Int)) →
      remove s index = (none, s)) ∧
    ∀ h : 0 ≤ index ∧ index < (s.queue.length : Int),
      remove s index =
        (some (s.queue.get ⟨index.toNat, by omega⟩),
         { s with queue := s.queue.eraseIdx index.toNat }) := by
  constructor
  · intro h
    unfold remove
    rw [dif_neg h]
  · intro h
    unfold remove
    rw [dif_pos h]

/-- Queue for the C7 witness. -/
def sC7 : AdvancedMusicQueue Nat := { queue := [4, 5] }

/-- Witness for C7: index 5 is beyond the two-entry queue, so `remove`
reports failure and the state is untouched; index 1 removes and returns
entry `5`. -/
theorem remove_witness :
    remove sC7 5 = (none, sC7) ∧
      remove sC7 1 = (some 5, { sC7 with queue := [4] }) :=
  ⟨(remove_out_of_range_safe sC7 5).1 (by decide),
   (remove_out_of_range_safe sC7 1).2 (by decide)⟩

/-- C10: in repeat-current mode with no current entry, `next()` does not
replay: nothing is appended to history, and the call proceeds as a normal
advance — popping the head (or, under shuffle, the randomly chosen entry,
removed by value) as the new current when the queue is non-empty, and
returning the empty signal when the queue is empty. -/
theorem repeat_song_no_current_advances (r : Nat) (s : AdvancedMusicQueue α)
    (h1 : s.loop_mode = LoopMode.song) (h2 : s.current = none) :
    (next r s).2.history = s.history ∧
    (match s.queue with
     | [] => next r s = (none, s)
     | x :: xs =>
       if s.shuffle = true then
         next r s = (some ((x :: xs).getD (r % (xs.length + 1)) x),
           { s with
               queue := (x :: xs).erase ((x :: xs).getD (r % (xs.length + 1)) x),
               current := some ((x :: xs).getD (r % (xs.length + 1)) x) })
       else
         next r s = (some x, { s with queue := xs, current := some x })) := by
  have hha : historyAfterAppend s = s.history := by
    unfold historyAfterAppend
    rw [h2]
  have hprep : nextPrep s = s := by
    unfold nextPrep
    rw [hha]
    rw [if_neg fun hcon => by rw [h1] at hcon; simp at hcon]
  have hmain : match s.queue with
      | [] => next r s = (none, s)
      | x :: xs =>
        if s.shuffle = true then
          next r s = (some ((x :: xs).getD (r % (xs.length + 1)) x),
            { s with
                queue := (x :: xs).erase ((x :: xs).getD (r % (xs.length + 1)) x),
                current := some ((x :: xs).getD (r % (xs.length + 1)) x) })
        else
          next r s = (some x, { s with queue := xs, current := some x }) := by
    cases hq : s.queue with
    | nil =>
      dsimp only
      unfold next
      rw [if_neg (by simp [h2]), hprep, hq]
    | cons x xs =>
      dsimp only
      by_cases hsh : s.shuffle = true
      · rw [if_pos hsh]
        unfold next
        rw [if_neg (by simp [h2]), hprep, hq]
        simp [hsh]
      · rw [if_neg hsh]
        unfold next
        rw [if_neg (by simp [h2]), hprep, hq]
        have hsh' : s.shuffle = false := by
          cases hb : s.shuffle
          · rfl
          · exact absurd hb hsh
        simp [hsh']
  have hhist : (next r s).2.history = s.history := by
    revert hmain
    cases hq : s.queue with
    | nil =>
      dsimp only
      intro hmain
      rw [hmain]
    | cons x xs =>
      dsimp only
      intro hmain
      by_cases hsh : s.shuffle = true
      · rw [if_pos hsh] at hmain
        rw [hmain]
      · rw [if_neg hsh] at hmain
        rw [hmain]
  exact ⟨hhist, hmain⟩

/-- State for the C10 witness: repeat-current mode, no current entry,
entries `5, 6` pending, shuffle off. -/
def sC10 : AdvancedMusicQueue Nat :=
  { queue := [5, 6], loop_mode := LoopMode.song }

/-- Witness for C10: `next()` pops `5` as the new current, leaves `6`
queued and appends nothing to history. -/
theorem repeat_song_no_current_witness :
    (next 0 sC10).2.history = [] ∧
      next 0 sC10 = (some 5, { sC10 with queue := [6], current := some 5 }) := by
  have h := repeat_song_no_current_advances 0 sC10 rfl rfl
  exact ⟨h.1, h.2⟩

end MusicBot

namespace AttendanceBot

/-- Python `str.split(sep)` on a character list: always at least one
(possibly empty) field, with empty fields kept between adjacent
separators. -/
def splitOnChar (sep : Char) : List Char → List (List Char)
  | [] => [[]]
  | c :: cs =>
    match splitOnChar sep cs, decide (c = sep) with
    | rest, true => [] :: rest
    | r :: rs, false => (c :: r) :: rs
    | [], false => [[c]]

/-- Accumulate decimal digits; any non-digit character aborts the parse
(Python `int`/`float` raising `ValueError`). -/
def digitsToNatAux : List Char → Nat → Option Nat
  | [], acc => some acc
  | c :: cs, acc =>
    if c.isDigit then digitsToNatAux cs (acc * 10 + (c.toNat - 48))
    else none

/-- Parse a non-empty all-digit character list as a natural number. -/
def digitsToNat? (l : List Char) : Option Nat :=
  match l with
  | [] => none
  | _ :: _ => digitsToNatAux l 0

/-- Parse a serialized duration string `H:MM:SS[.ffffff]` the way
`format_duration` and the statistics code do (bot.py lines 253-256 and
1160-1164): split on `:`, read the first three parts with `int()`, and
truncate the seconds part to its integer component (Python's
`int(float(parts[2]))`, here modelled for the non-negative decimal
literals `str(timedelta)` produces).  Any parse failure yields `none`
(the Python `except` path). -/
def parseDurationParts (str : String) : Option (Nat × Nat × Nat) :=
  match splitOnChar ':' str.data with
  | hs :: ms :: ss :: _ =>
    match digitsToNat? hs, digitsToNat? ms,
        digitsToNat? ((splitOnChar '.' ss).headD []) with
    | some h, some m, some s => some (h, m, s)
    | _, _, _ => none
  | _ => none

/-- `format_duration` (bot.py lines 246-265): `None` or `"Ongoing"` map to
`"Ongoing"`; otherwise the parsed `H:MM:SS[.ffffff]` string is rendered as
`"{h}h {m}m {s}s"` when hours are positive, `"{m}m {s}s"` when only
minutes are positive, and `"{s}s"` otherwise; a string that fails to parse
is returned unchanged. -/
def format_duration (duration_str : Option String) : String :=
  match duration_str with
  | none => "Ongoing"
  | some str =>
    if str = "Ongoing" then "Ongoing"
    else
      match parseDurationParts str with
      | some (h, m, s) =>
        if h > 0 then
          toString h ++ "h " ++ toString m ++ "m " ++ toString s ++ "s"
        else if m > 0 then
          toString m ++ "m " ++ toString s ++ "s"
        else
          toString s ++ "s"
      | none => str

/-- The `hours/minutes/seconds` rendering block shared by
`calculate_total_time` (bot.py lines 1224-1233) and the average/longest
formatting in `get_session_stats` (lines 1178-1197): split a second count
into `h`/`m`/`s` and drop the leading zero units. -/
def formatSeconds (n : Nat) : String :=
  let hours := n / 3600
  let minutes := n % 3600 / 60
  let seconds := n % 60
  if hours > 0 then
    toString hours ++ "h " ++ toString minutes ++ "m " ++ toString seconds ++ "s"
  else if minutes > 0 then
    toString minutes ++ "m " ++ toString seconds ++ "s"
  else
    toString seconds ++ "s"

/-- A session as read by the statistics code, which accesses only the
`leave_time` and `duration` keys (via `.get`, so either may be absent —
absent and `None` coincide in the model). -/
structure StatSession where
  leave_time : Option String := none
  duration : Option String := none
deriving DecidableEq

/-- The completed-session test `s.get('duration') and s['duration'] !=
"Ongoing"` (bot.py line 1155): a present, non-empty duration string other
than `"Ongoing"` (Python truthiness makes `""` falsy). -/
def isCompleted (s : StatSession) : Bool :=
  match s.duration with
  | some d => (d != "") && (d != "Ongoing")
  | none => false

/-- Seconds contributed by one session to the duration tallies (bot.py
lines 1158-1167 and 1213-1222): completed sessions whose duration string
parses contribute `hours*3600 + minutes*60 + seconds`; unparsable or
non-completed sessions are skipped. -/
def sessionSeconds (s : StatSession) : Option Nat :=
  match s.duration with
  | some d =>
    if d ≠ "" ∧ d ≠ "Ongoing" then
      match parseDurationParts d with
      | some (h, m, sec) => some (h * 3600 + m * 60 + sec)
      | none => none
    else none
  | none => none

/-- `calculate_total_time` (bot.py lines 1210-1233): sum the parsed
durations of the completed sessions and render the total with
leading-zero units dropped. -/
def calculate_total_time (sessions : List StatSession) : String :=
  formatSeconds (sessions.filterMap sessionSeconds).sum

/-- `int(q)` on the non-negative Python floats appearing in the average
computation (floor, since the values are non-negative). -/
def qToNat (q : ℚ) : Nat := (⌊q⌋).toNat

/-- Python's float `%` for the non-negative operands used here:
`x - y * (x // y)`. -/
def qmod (x y : ℚ) : ℚ := x - y * (⌊x / y⌋ : ℤ)

/-- The result dict of `get_session_stats`.  `completed_sessions` and
`active_sessions` are `Option`s because the empty-list early return
(bot.py line 1153) builds a dict without those two keys. -/
structure SessionStats where
  total_sessions : Nat
  completed_sessions : Option Nat
  active_sessions : Option Nat
  total_time : String
  avg_session : String
  longest_session : String
deriving DecidableEq

/-- `get_session_stats` (bot.py lines 1150-1208).  The empty-list branch
reproduces the early return at line 1153 (note the absent keys).
Otherwise: completed sessions are filtered by truthiness, their parsed
second counts are collected, `statistics.mean` is modelled as the exact
rational mean (Python float rounding only diverges beyond 2^53), the
average is decomposed with float `//` and `%` as in lines 1178-1180, and
the longest session uses `max` over the collected counts. -/
def get_session_stats (sessions : List StatSession) : SessionStats :=
  if sessions.isEmpty then
    { total_sessions := 0, completed_sessions := none, active_sessions := none,
      total_time := "0s", avg_session := "0s", longest_session := "0s" }
  else
    let completed := sessions.filter isCompleted
    let durations := completed.filterMap sessionSeconds
    let total_time := calculate_total_time sessions
    let stats :=
      if durations.isEmpty then ("0s", "0s")
      else
        let avg_seconds : ℚ := (durations.sum : ℚ) / (durations.length : ℚ)
        let max_seconds := durations.foldl max 0
        let avg_h := qToNat (avg_seconds / 3600)
        let avg_m := qToNat (qmod avg_seconds 3600 / 60)
        let avg_s := qToNat (qmod avg_seconds 60)
        let avg_session :=
          if avg_h > 0 then
            toString avg_h ++ "h " ++ toString avg_m ++ "m " ++ toString avg_s ++ "s"
          else if avg_m > 0 then
            toString avg_m ++ "m " ++ toString avg_s ++ "s"
          else
            toString avg_s ++ "s"
        let max_h := max_seconds / 3600
        let max_m := max_seconds % 3600 / 60
        let max_s := max_seconds % 60
        let longest_session :=
          if max_h > 0 then
            toString max_h ++ "h " ++ toString max_m ++ "m " ++ toString max_s ++ "s"
          else if max_m > 0 then
            toString max_m ++ "m " ++ toString max_s ++ "s"
          else
            toString max_s ++ "s"
        (avg_session, longest_session)
    let active_sessions := (sessions.filter fun s => s.leave_time.isNone).length
    { total_sessions := sessions.length,
      completed_sessions := some completed.length,
      active_sessions := some active_sessions,
      total_time := total_time,
      avg_session := stats.1,
      longest_session := stats.2 }

/-- Counterexample to C8 as stated: the total over completed durations of
10, 20 and 30 seconds displays as `"1m 0s"`, not `"1m"` — the formatter
keeps the trailing zero seconds unit, so the output is not restricted to
the largest two non-zero units. -/
theorem total_time_two_unit_cex :
    calculate_total_time
        [{ duration := some "0:00:10" }, { duration := some "0:00:20" },
         { duration := some "0:00:30" }] = "1m 0s" ∧
      ("1m 0s" : String) ≠ "1m" :=
  ⟨by decide, by decide⟩

/-- C8 (amended): the displayed duration string shows the largest non-zero
unit followed by all smaller units, including zero ones — three units when
hours are positive (`"1h 5m 0s"`), two when only minutes are (`"5m 30s"`),
one otherwise (`"12s"`); exactly zero seconds displays as `"0s"`; and the
total over completed durations of 10, 20 and 30 seconds displays as
`"1m 0s"`.  The first conjunct states the general shape: on any duration
string that parses (with in-range minutes and seconds, as `str(timedelta)`
produces), `format_duration` agrees with the canonical seconds-based
rendering `formatSeconds`. -/
theorem duration_display_format :
    (∀ str h m s, parseDurationParts str = some (h, m, s) → m < 60 → s < 60 →
      format_duration (some str) = formatSeconds (h * 3600 + m * 60 + s)) ∧
    format_duration (some "1:05:00") = "1h 5m 0s" ∧
    format_duration (some "0:05:30") = "5m 30s" ∧
    format_duration (some "0:00:12") = "12s" ∧
    format_duration (some "0:00:00") = "0s" ∧
    calculate_total_time
        [{ duration := some "0:00:10" }, { duration := some "0:00:20" },
         { duration := some "0:00:30" }] = "1m 0s" := by
  refine ⟨?_, by decide, by decide, by decide, by decide, by decide⟩
  intro str h m s hp hm hs
  have hno : parseDurationParts "Ongoing" = none := by decide
  have hstr : str ≠ "Ongoing" := by
    intro he
    rw [he, hno] at hp
    cases hp
  unfold format_duration
  dsimp only
  rw [if_neg hstr, hp]
  dsimp only
  unfold formatSeconds
  have e1 : (h * 3600 + m * 60 + s) / 3600 = h := by omega
  have e2 : (h * 3600 + m * 60 + s) % 3600 / 60 = m := by omega
  have e3 : (h * 3600 + m * 60 + s) % 60 = s := by omega
  rw [e1, e2, e3]

/-- Witness for the general conjunct of the amended C8 at the concrete
duration string `"2:30:05"`. -/
theorem duration_display_witness :
    format_duration (some "2:30:05") = formatSeconds (2 * 3600 + 30 * 60 + 5) :=
  duration_display_format.1 "2:30:05" 2 30 5 (by decide) (by decide) (by decide)

/-- C9 / code bug: `get_session_stats([])` early-returns, without raising,
a record whose `total_sessions` is zero and whose formatted fields are all
`"0s"`, but whose `completed_sessions` and `active_sessions` keys are
absent (`none` in the model) instead of present and zero.  The attendance
command reads both keys unconditionally, so the early return contradicts
the code's own caller. -/
theorem stats_empty_missing_fields :
    get_session_stats [] =
      { total_sessions := 0, completed_sessions := none,
        active_sessions := none, total_time := "0s",
        avg_session := "0s", longest_session := "0s" } := rfl

end AttendanceBot
